import Mathlib

/-!
Shallow embedding of the realtime coordinator of the industrial
communication system: the socket server in src/server.js (mirrored by
src/lib/websocket-server.ts) and the HTTP routes
src/app/api/messages/route.ts and the devices route.

Conventions of the embedding:
* Every field that a JavaScript caller may omit is an Option; the
  JavaScript truthiness test on a string field is isFalsyStr.
* The JavaScript Map of connected devices is an insertion-ordered
  association list; set replaces in place, new keys are appended.
* Time is an Int (milliseconds); generated message ids are passed in as
  the freshId argument.
* Each awaited MongoDB call that sits inside a try block is modelled by
  a Bool argument storeOk telling whether the call succeeded; the code
  following the await runs only when it did, the catch branch otherwise.
* An emitted event carries a Target: the io.emit broadcast goes to all
  sessions, socket.emit only to the calling session, and
  socket.broadcast.emit to every session but the caller.
-/

namespace IndustrialComm

/-- JavaScript truthiness failure for an optional string field: the field
is falsy exactly when it is absent or the empty string. -/
def isFalsyStr : Option String → Bool
  | none => true
  | some s => s = ""

/-- JavaScript defaulting idiom value-or-default on an optional string. -/
def orDefaultStr (v : Option String) (d : String) : String :=
  match v with
  | none => d
  | some s => if s = "" then d else s

/-- Payload of a register-device command, fields as sent by the client
(spread into the device record without validation by the socket server). -/
structure DeviceInfo where
  id : Option String
  name : Option String
  dtype : Option String
  language : Option String
deriving DecidableEq, Repr

/-- A connected device as stored in the in-memory map: the client fields
plus socketId, lastSeen and status added by the server. -/
structure Device where
  id : Option String
  name : Option String
  dtype : Option String
  language : Option String
  socketId : String
  lastSeen : Int
  status : String
deriving DecidableEq, Repr

/-- Payload of a send-message command as sent over the socket; none of the
fields is checked by the server. -/
structure MessageInput where
  text : Option String
  channel : Option String
  source : Option String
  mtype : Option String
  deviceId : Option String
deriving DecidableEq, Repr

/-- A stored message: id and timestamp are always present, the remaining
fields are whatever the producing path supplied. -/
structure Message where
  id : String
  text : Option String
  timestamp : Int
  channel : Option String
  source : Option String
  mtype : Option String
  deviceId : Option String
deriving DecidableEq, Repr

/-- The in-memory connected-devices map, insertion ordered, keyed by the
id field of the registering payload (which may be absent). -/
abbrev Registry := List (Option String × Device)

/-- JavaScript Map.set: replace in place when the key is present,
append otherwise. -/
def jsMapSet (k : Option String) (v : Device) : Registry → Registry
  | [] => [(k, v)]
  | (k', v') :: rest => if k' = k then (k, v) :: rest else (k', v') :: jsMapSet k v rest

/-- JavaScript Map.get. -/
def jsMapGet (k : Option String) : Registry → Option Device
  | [] => none
  | (k', v) :: rest => if k' = k then some v else jsMapGet k rest

/-- JavaScript Map.delete of the entry holding the given key. -/
def jsMapDelete (k : Option String) : Registry → Registry
  | [] => []
  | (k', v) :: rest => if k' = k then rest else (k', v) :: jsMapDelete k rest

/-- Delivery scope of an emitted socket event. -/
inductive Target
  | all
  | only (sid : String)
  | exceptSender (sid : String)
deriving DecidableEq, Repr

/-- Events the coordinator emits to sessions. -/
inductive Event
  | connectedDevicesSnapshot (devs : List Device)
  | deviceConnected (d : Device)
  | deviceDisconnected (k : Option String)
  | newMessage (m : Message)
  | emergencyAlert (m : Message)
  | emergencyStopped (deviceId : String) (m : Message)
  | errorMsg (s : String)
deriving DecidableEq, Repr

/-- Whether a session with the given socket id receives an event emitted
with the given target. -/
def deliveredTo (s : String) : Target → Bool
  | Target.all => true
  | Target.only sid => s = sid
  | Target.exceptSender sid => s != sid

/-- Session s receives event e among the emitted (target, event) pairs. -/
def receives (s : String) (e : Event) (evts : List (Target × Event)) : Prop :=
  ∃ t, (t, e) ∈ evts ∧ deliveredTo s t = true

/-- State of the socket server: the in-memory device map and the messages
collection of the store (insertion ordered). -/
structure ServerState where
  connectedDevices : Registry
  messages : List Message
deriving DecidableEq, Repr

/-- State at server start: empty map, empty collection. -/
def initialState : ServerState := ⟨[], []⟩

/-- The device record built by the register-device handler: the client
payload spread first, then socketId, lastSeen now and status online. -/
def mkDevice (info : DeviceInfo) (sid : String) (now : Int) : Device :=
  { id := info.id, name := info.name, dtype := info.dtype, language := info.language,
    socketId := sid, lastSeen := now, status := "online" }

/-- The register-device handler (src/server.js lines 73-105): builds the
device, stores it in the map, awaits the upsert, then sends the snapshot
to the caller and broadcasts device-connected; on store failure the map
update has already happened and only an error is sent to the caller. -/
def registerDevice (st : ServerState) (sid : String) (info : DeviceInfo)
    (now : Int) (storeOk : Bool) : ServerState × List (Target × Event) :=
  let device := mkDevice info sid now
  let devices' := jsMapSet device.id device st.connectedDevices
  if storeOk then
    ({ st with connectedDevices := devices' },
      [(Target.only sid, Event.connectedDevicesSnapshot (devices'.map Prod.snd)),
       (Target.exceptSender sid, Event.deviceConnected device)])
  else
    ({ st with connectedDevices := devices' },
      [(Target.only sid, Event.errorMsg "Failed to register device")])

/-- The message record built by the send-message handler: generated id and
timestamp, then the payload fields copied verbatim. -/
def mkWsMessage (input : MessageInput) (now : Int) (freshId : String) : Message :=
  { id := freshId, text := input.text, timestamp := now, channel := input.channel,
    source := input.source, mtype := input.mtype, deviceId := input.deviceId }

/-- The send-message handler (src/server.js lines 108-137): awaits the
insert, then broadcasts new-message to all sessions and, when the type
field equals emergency, additionally broadcasts emergency-alert; the log
line at 128 then reads message.text.substring, which throws when the
payload carried no text, and the catch at 133-136 emits an error to the
caller after the broadcasts already went out; on store failure nothing is
broadcast and only the error goes to the caller. -/
def sendMessage (st : ServerState) (sid : String) (input : MessageInput)
    (now : Int) (freshId : String) (storeOk : Bool) : ServerState × List (Target × Event) :=
  let message := mkWsMessage input now freshId
  if storeOk then
    ({ st with messages := st.messages ++ [message] },
      ((Target.all, Event.newMessage message) ::
        (if message.mtype = some "emergency" then [(Target.all, Event.emergencyAlert message)] else [])) ++
      (match message.text with
        | some _ => []
        | none => [(Target.only sid, Event.errorMsg "Failed to send message")]))
  else
    (st, [(Target.only sid, Event.errorMsg "Failed to send message")])

/-- The synthetic message built by the stop-emergency handler. -/
def mkStopMessage (deviceId : String) (now : Int) (freshId : String) : Message :=
  { id := freshId, text := some ("Emergency alert stopped by " ++ deviceId),
    timestamp := now, channel := some "emergency-control", source := some deviceId,
    mtype := some "normal", deviceId := none }

/-- The stop-emergency handler (src/server.js lines 161-179): always
stores a synthetic stop message and broadcasts one emergency-stopped
event; it consults no alert state; on store failure nothing is emitted. -/
def stopEmergency (st : ServerState) (deviceId : String) (now : Int)
    (freshId : String) (storeOk : Bool) : ServerState × List (Target × Event) :=
  let message := mkStopMessage deviceId now freshId
  if storeOk then
    ({ st with messages := st.messages ++ [message] },
      [(Target.all, Event.emergencyStopped deviceId message)])
  else
    (st, [])

/-- First entry of the map whose device holds the given socket id, in
iteration (insertion) order, as scanned by the disconnect handler. -/
def findBySocket (sid : String) : Registry → Option (Option String × Device)
  | [] => none
  | (k, d) :: rest => if d.socketId = sid then some (k, d) else findBySocket sid rest

/-- The disconnect handler (src/server.js lines 182-211): removes the
first map entry bound to the closing socket (if any) and, when the store
update succeeds, broadcasts one device-disconnected event carrying that
device's id field; the loop breaks after the first match. -/
def handleDisconnect (st : ServerState) (sid : String) (storeOk : Bool) :
    ServerState × List (Target × Event) :=
  match findBySocket sid st.connectedDevices with
  | none => (st, [])
  | some (k, d) =>
    ({ st with connectedDevices := jsMapDelete k st.connectedDevices },
      if storeOk then [(Target.exceptSender sid, Event.deviceDisconnected d.id)] else [])

/-- Staleness test of the cleanup loop. -/
def isStale (now threshold : Int) (d : Device) : Bool := now - d.lastSeen > threshold

/-- Threshold used by the periodic cleanup (src/server.js line 217). -/
def inactiveThreshold : Int := 60000

/-- The periodic cleanup (src/server.js lines 215-238): deletes from the
map every device whose lastSeen lies strictly more than the threshold
before now, and for each deleted device whose store update succeeds
(dbOk on its key) broadcasts one device-disconnected event carrying the
map key; fresh devices are untouched. -/
def cleanupInactiveDevices (st : ServerState) (now threshold : Int)
    (dbOk : Option String → Bool) : ServerState × List (Target × Event) :=
  ({ st with connectedDevices :=
      st.connectedDevices.filter (fun p => !(isStale now threshold p.2)) },
    (st.connectedDevices.filter (fun p => isStale now threshold p.2)).filterMap
      (fun p => if dbOk p.1 then some (Target.all, Event.deviceDisconnected p.1) else none))

/-- Payload of a POST to the messages route; the client may also supply
its own id and timestamp (both passed through a truthiness default). -/
structure PostMessageInput where
  id : Option String
  text : Option String
  timestamp : Option Int
  channel : Option String
  source : Option String
  mtype : Option String
  deviceId : Option String
deriving DecidableEq, Repr

/-- Outcome of a POST to the messages route. -/
inductive PostResult
  | ok (m : Message)
  | validationError
deriving DecidableEq, Repr

/-- Comparison used when the messages route sorts by ascending timestamp. -/
def tsLE (a b : Message) : Prop := a.timestamp ≤ b.timestamp

instance : DecidableRel tsLE := fun a b => Int.decLe a.timestamp b.timestamp

instance : IsTotal Message tsLE := ⟨fun a b => Int.le_total a.timestamp b.timestamp⟩

instance : IsTrans Message tsLE := ⟨fun _ _ _ hab hbc => Int.le_trans hab hbc⟩

/-- Retention cap of the messages route (route.ts line 81). -/
def retentionCap : Nat := 1000

/-- Retention trimming of the messages route (route.ts lines 79-91): when
the count after insert exceeds the cap, the oldest surplus documents in
ascending timestamp order are fetched and deleted by their ids. -/
def enforceRetention (store : List Message) : List Message :=
  let count := store.length
  if count > retentionCap then
    let oldMessages := (List.insertionSort tsLE store).take (count - retentionCap)
    let oldIds := oldMessages.map Message.id
    store.filter (fun m => m.id ∉ oldIds)
  else store

/-- The message record built by the messages route (route.ts lines 66-74):
trimmed text, defaulted id, timestamp, channel and type. -/
def mkPostMessage (input : PostMessageInput) (now : Int) (freshId : String) : Message :=
  { id := orDefaultStr input.id freshId,
    text := some (input.text.getD "").trim,
    timestamp := match input.timestamp with
      | none => now
      | some t => if t = 0 then now else t,
    channel := some (orDefaultStr input.channel "broadcast"),
    source := input.source,
    mtype := some (orDefaultStr input.mtype "normal"),
    deviceId := input.deviceId }

/-- The POST handler of the messages route (route.ts lines 51-107):
rejects a falsy text or source with status 400 and stores nothing;
otherwise inserts the built message and then enforces the retention cap. -/
def messagesPost (store : List Message) (input : PostMessageInput)
    (now : Int) (freshId : String) : List Message × PostResult :=
  if isFalsyStr input.text || isFalsyStr input.source then
    (store, PostResult.validationError)
  else
    let message := mkPostMessage input now freshId
    (enforceRetention (store ++ [message]), PostResult.ok message)

/-- A device document in the devices collection of the store. -/
structure DbDevice where
  id : String
  name : String
  dtype : String
  status : String
  lastSeen : Int
  language : String
deriving DecidableEq, Repr

/-- Outcome of a POST to the devices route. -/
inductive DevicePostResult
  | ok (d : DbDevice)
  | validationError
deriving DecidableEq, Repr

/-- MongoDB updateOne with upsert keyed on the id field: replace the
first document with that id, or append when none exists. -/
def upsertDevice (d : DbDevice) : List DbDevice → List DbDevice
  | [] => [d]
  | x :: xs => if x.id = d.id then d :: xs else x :: upsertDevice d xs

/-- The POST handler of the devices route (src/unnamed/part_000 lines
45-83): rejects a falsy id, name or type with status 400 and stores
nothing; otherwise builds the document with status online, lastSeen now
and a defaulted language, and upserts it; the type value is never checked
against the four recognized kinds. -/
def devicesPost (store : List DbDevice) (input : DeviceInfo) (now : Int) :
    List DbDevice × DevicePostResult :=
  if isFalsyStr input.id || isFalsyStr input.name || isFalsyStr input.dtype then
    (store, DevicePostResult.validationError)
  else
    let device : DbDevice :=
      { id := input.id.getD "", name := input.name.getD "", dtype := input.dtype.getD "",
        status := "online", lastSeen := now, language := orDefaultStr input.language "en-US" }
    (upsertDevice device store, DevicePostResult.ok device)

/-! Concrete fixtures used by counterexamples and witnesses. -/

/-- An emergency send-message payload. -/
def emInput : MessageInput :=
  { text := some "HELP", channel := some "broadcast", source := some "ENGINE-ROOM",
    mtype := some "emergency", deviceId := none }

/-- A well-formed normal send-message payload. -/
def helloInput : MessageInput :=
  { text := some "Hello", channel := some "broadcast", source := some "MCR",
    mtype := some "normal", deviceId := none }

/-- A send-message payload with empty text and missing source. -/
def invalidInput : MessageInput :=
  { text := some "", channel := none, source := none, mtype := none, deviceId := none }

/-- State after one emergency message has been published and no stop has
arrived: the alert slot is active in the vocabulary of the specification. -/
def stAfterEmergency : ServerState := (sendMessage initialState "s1" emInput 1 "m1" true).1

/-- A messages-route payload with a missing text field. -/
def noTextPostInput : PostMessageInput :=
  { id := none, text := none, timestamp := none, channel := none,
    source := some "MCR", mtype := none, deviceId := none }

/-- A device registration whose type is none of the four recognized kinds. -/
def toasterInput : DeviceInfo :=
  { id := some "DEV-1", name := some "Dev", dtype := some "toaster", language := none }

/-- A device registration missing its name field. -/
def namelessInput : DeviceInfo :=
  { id := some "DEV-1", name := none, dtype := some "mcr", language := none }

/-! Claim C1. -/

/-- C1 counterexample: with the alert slot active (one emergency published,
not stopped), a further emergency message makes the handler emit a second
emergency-alert event, contradicting the claim that an emergency-alert
event is emitted only on the idle-to-active transition. -/
theorem second_emergency_alert_reemitted :
    (Target.all, Event.emergencyAlert (mkWsMessage emInput 2 "m2")) ∈
      (sendMessage stAfterEmergency "s2" emInput 2 "m2" true).2 := by decide

/-- C1 amended: the handler consults no alert state; every successfully
stored message whose type field is emergency is broadcast both as a
new-message event and as an emergency-alert event, whatever the state —
followed, exactly when the payload carried no text field, by the error
event the post-broadcast logging throw sends to the caller. -/
theorem emergency_alert_on_every_emergency (st : ServerState) (sid : String)
    (input : MessageInput) (now : Int) (freshId : String)
    (h : input.mtype = some "emergency") :
    (sendMessage st sid input now freshId true).2 =
      [(Target.all, Event.newMessage (mkWsMessage input now freshId)),
       (Target.all, Event.emergencyAlert (mkWsMessage input now freshId))] ++
      (match input.text with
        | some _ => []
        | none => [(Target.only sid, Event.errorMsg "Failed to send message")]) := by
  cases htext : input.text <;>
    simp [sendMessage, mkWsMessage, h, htext]

/-- C1 witness: the amended theorem applied to a concrete emergency
publish from the initial state. -/
theorem emergency_alert_on_every_emergency_witness :
    emInput.mtype = some "emergency" ∧
    (sendMessage initialState "s1" emInput 1 "m1" true).2 =
      [(Target.all, Event.newMessage (mkWsMessage emInput 1 "m1")),
       (Target.all, Event.emergencyAlert (mkWsMessage emInput 1 "m1"))] :=
  ⟨rfl, emergency_alert_on_every_emergency initialState "s1" emInput 1 "m1" rfl⟩

/-! Claim C2. -/

/-- C2 counterexample: the realtime send-message handler performs no
validation: a payload with empty text and missing source is stored and
broadcast as a new-message event, contradicting the claim that such an
input is rejected with no stored message and no broadcast. -/
theorem ws_publish_accepts_invalid :
    (sendMessage initialState "s1" invalidInput 1 "m1" true).1.messages =
      [mkWsMessage invalidInput 1 "m1"] ∧
    (Target.all, Event.newMessage (mkWsMessage invalidInput 1 "m1")) ∈
      (sendMessage initialState "s1" invalidInput 1 "m1" true).2 := by decide

/-- C2 amended: only the HTTP messages route validates, and it rejects a
text that is missing or the empty string before trimming, or a missing or
empty source, storing nothing; the realtime path stores and broadcasts
any payload. -/
theorem messages_post_rejects_falsy (store : List Message) (input : PostMessageInput)
    (now : Int) (freshId : String)
    (h : isFalsyStr input.text = true ∨ isFalsyStr input.source = true) :
    messagesPost store input now freshId = (store, PostResult.validationError) := by
  unfold messagesPost
  rcases h with h | h <;> simp [h]

/-- C2 witness: the amended theorem applied to a payload with a missing
text field. -/
theorem messages_post_rejects_falsy_witness :
    isFalsyStr noTextPostInput.text = true ∧
    messagesPost [] noTextPostInput 5 "m1" = ([], PostResult.validationError) :=
  ⟨rfl, messages_post_rejects_falsy [] noTextPostInput 5 "m1" (Or.inl rfl)⟩

/-! Claim C3. -/

/-- C3 counterexample: a stop-emergency command arriving in the initial
state, where no emergency was ever published (the slot is idle), still
stores a synthetic message and emits one emergency-stopped event,
contradicting the claim that it is a no-op emitting nothing. -/
theorem stop_while_idle_emits_event :
    (stopEmergency initialState "MCR" 5 "m1" true).2 =
      [(Target.all, Event.emergencyStopped "MCR" (mkStopMessage "MCR" 5 "m1"))] ∧
    (stopEmergency initialState "MCR" 5 "m1" true).1.messages =
      [mkStopMessage "MCR" 5 "m1"] := ⟨rfl, rfl⟩

/-- C3 amended: the stop-emergency handler consults no alert state: in
every state it stores one synthetic stop message and emits exactly one
emergency-stopped event, leaving the device map unchanged; the server
keeps no alert slot and schedules no auto-expiry, so there is nothing to
transition or cancel. -/
theorem stop_emergency_unconditional (st : ServerState) (deviceId : String)
    (now : Int) (freshId : String) :
    (stopEmergency st deviceId now freshId true).2 =
      [(Target.all, Event.emergencyStopped deviceId (mkStopMessage deviceId now freshId))] ∧
    (stopEmergency st deviceId now freshId true).1.messages =
      st.messages ++ [mkStopMessage deviceId now freshId] ∧
    (stopEmergency st deviceId now freshId true).1.connectedDevices =
      st.connectedDevices :=
  ⟨rfl, rfl, rfl⟩

/-! Claim C4. -/

/-- C4 counterexample: when the store insert fails during send-message,
the only emitted event is an error to the calling session: no session
receives the new-message broadcast and the message is not stored,
contradicting the claim that the broadcast is independent of the
persistence write. -/
theorem store_failure_blocks_broadcast_cex :
    (sendMessage initialState "s1" helloInput 3 "m9" false).2 =
      [(Target.only "s1", Event.errorMsg "Failed to send message")] ∧
    (sendMessage initialState "s1" helloInput 3 "m9" false).1 = initialState ∧
    ¬ receives "s2" (Event.newMessage (mkWsMessage helloInput 3 "m9"))
        (sendMessage initialState "s1" helloInput 3 "m9" false).2 := by
  refine ⟨rfl, rfl, ?_⟩
  rintro ⟨t, ht, -⟩
  simp [sendMessage, receives] at ht

/-- C4 amended: each handler awaits the persistence write before
emitting, so a store failure suppresses the broadcast: send-message then
emits only an error to the caller and leaves the state unchanged, and
register-device emits only an error, although its in-memory map update
has already happened before the write. -/
theorem broadcast_requires_store_success (st : ServerState) (sid : String)
    (input : MessageInput) (info : DeviceInfo) (now : Int) (freshId : String) :
    (sendMessage st sid input now freshId false).2 =
      [(Target.only sid, Event.errorMsg "Failed to send message")] ∧
    (sendMessage st sid input now freshId false).1 = st ∧
    (registerDevice st sid info now false).2 =
      [(Target.only sid, Event.errorMsg "Failed to register device")] ∧
    (registerDevice st sid info now false).1.connectedDevices =
      jsMapSet info.id (mkDevice info sid now) st.connectedDevices :=
  ⟨rfl, rfl, rfl, rfl⟩

/-! Claim C5. -/

/-- C5 counterexample: a registration whose type is none of the four
recognized kinds is accepted by the devices route and upserted into the
store, contradicting the claim that it fails with a validation error and
adds nothing. -/
theorem devices_post_accepts_unknown_kind :
    (∀ k ∈ (["mcr", "engine", "remote", "handheld"] : List String),
      some k ≠ toasterInput.dtype) ∧
    devicesPost [] toasterInput 7 =
      ([⟨"DEV-1", "Dev", "toaster", "online", 7, "en-US"⟩],
        DevicePostResult.ok ⟨"DEV-1", "Dev", "toaster", "online", 7, "en-US"⟩) := by
  exact ⟨by decide, rfl⟩

/-- C5 amended: the devices route rejects a registration whose id, name
or type is missing or empty, storing nothing; it never checks the type
against the four recognized kinds, and the realtime register-device
handler performs no validation at all. -/
theorem devices_post_rejects_missing_fields (store : List DbDevice)
    (input : DeviceInfo) (now : Int)
    (h : isFalsyStr input.id = true ∨ isFalsyStr input.name = true ∨
      isFalsyStr input.dtype = true) :
    devicesPost store input now = (store, DevicePostResult.validationError) := by
  unfold devicesPost
  rcases h with h | h | h <;> simp [h]

/-- C5 witness: the amended theorem applied to a registration missing its
name field. -/
theorem devices_post_rejects_missing_fields_witness :
    isFalsyStr namelessInput.name = true ∧
    devicesPost [] namelessInput 7 = ([], DevicePostResult.validationError) :=
  ⟨rfl, devices_post_rejects_missing_fields [] namelessInput 7 (Or.inr (Or.inl rfl))⟩

/-! Claim C9. -/

/-- C9: every successfully published message is broadcast with target
all, so every connected session receives the new-message event carrying
it, whatever the channel, source and type fields hold. -/
theorem publish_broadcast_reaches_every_session (st : ServerState) (sid : String)
    (input : MessageInput) (now : Int) (freshId : String) (s : String) :
    receives s (Event.newMessage (mkWsMessage input now freshId))
      (sendMessage st sid input now freshId true).2 := by
  refine ⟨Target.all, ?_, rfl⟩
  show (Target.all, Event.newMessage (mkWsMessage input now freshId)) ∈
    ((Target.all, Event.newMessage (mkWsMessage input now freshId)) :: _) ++ _
  exact List.mem_append_left _ (List.mem_cons_self _ _)

/-! Lemmas about the JavaScript Map embedding. -/

/-- Looking up the key just set returns the value just set. -/
theorem jsMapGet_jsMapSet_self (k : Option String) (v : Device) (m : Registry) :
    jsMapGet k (jsMapSet k v m) = some v := by
  induction m with
  | nil => simp [jsMapSet, jsMapGet]
  | cons p rest ih =>
    obtain ⟨k', v'⟩ := p
    by_cases h : k' = k
    · simp [jsMapSet, h, jsMapGet]
    · simp [jsMapSet, h, jsMapGet, ih]

/-- A key present after a set was present before or is the key set. -/
theorem keys_jsMapSet_subset (k : Option String) (v : Device) (m : Registry) :
    ∀ x ∈ (jsMapSet k v m).map Prod.fst, x = k ∨ x ∈ m.map Prod.fst := by
  induction m with
  | nil =>
    intro x hx
    simp [jsMapSet] at hx
    exact Or.inl hx
  | cons p rest ih =>
    intro x hx
    obtain ⟨k', v'⟩ := p
    by_cases h : k' = k
    · simp only [jsMapSet, if_pos h, List.map_cons, List.mem_cons] at hx
      rcases hx with hx | hx
      · exact Or.inl hx
      · exact Or.inr (by simp [hx])
    · simp only [jsMapSet, if_neg h, List.map_cons, List.mem_cons] at hx
      rcases hx with hx | hx
      · exact Or.inr (by simp [hx])
      · rcases ih x hx with h1 | h1
        · exact Or.inl h1
        · exact Or.inr (by simp [h1])

/-- Map.set preserves distinctness of keys. -/
theorem nodup_keys_jsMapSet (k : Option String) (v : Device) {m : Registry}
    (hm : (m.map Prod.fst).Nodup) : ((jsMapSet k v m).map Prod.fst).Nodup := by
  induction m with
  | nil => simp [jsMapSet]
  | cons p rest ih =>
    obtain ⟨k', v'⟩ := p
    simp only [List.map_cons, List.nodup_cons] at hm
    obtain ⟨hk', hrest⟩ := hm
    by_cases h : k' = k
    · subst h
      have hset : jsMapSet k' v ((k', v') :: rest) = (k', v) :: rest := by
        simp [jsMapSet]
      rw [hset]
      simp only [List.map_cons, List.nodup_cons]
      exact ⟨hk', hrest⟩
    · simp only [jsMapSet, if_neg h, List.map_cons, List.nodup_cons]
      refine ⟨?_, ih hrest⟩
      intro hmem
      rcases keys_jsMapSet_subset k v rest k' hmem with h1 | h1
      · exact h h1
      · exact hk' h1

/-- With distinct keys, at most one entry of the map carries a given key. -/
theorem length_filter_key_le_one {m : Registry} (hm : (m.map Prod.fst).Nodup)
    (X : Option String) : (m.filter (fun q => q.1 = X)).length ≤ 1 := by
  induction m with
  | nil => simp
  | cons p rest ih =>
    simp only [List.map_cons, List.nodup_cons] at hm
    obtain ⟨hp, hrest⟩ := hm
    by_cases h : p.1 = X
    · have hempty : rest.filter (fun q => q.1 = X) = [] := by
        refine List.filter_eq_nil_iff.mpr ?_
        intro q hq hqX
        apply hp
        have : q.1 = p.1 := by
          rw [h]
          simpa using hqX
        rw [← this]
        exact List.mem_map_of_mem Prod.fst hq
      simp [List.filter_cons, h, hempty]
    · simpa [List.filter_cons, h] using ih hrest

/-! Claim C6. -/

/-- One register command as a record: session, payload, arrival time, and
whether the store upsert succeeded. -/
structure RegCall where
  sid : String
  info : DeviceInfo
  now : Int
  storeOk : Bool
deriving DecidableEq, Repr

/-- State effect of one register command (events dropped). -/
def applyRegister (st : ServerState) (c : RegCall) : ServerState :=
  (registerDevice st c.sid c.info c.now c.storeOk).1

/-- State after a sequence of register commands. -/
def runRegisters (st : ServerState) (cs : List RegCall) : ServerState :=
  cs.foldl applyRegister st

/-- Whatever the store outcome, a register command sets the built device
under the id field of its payload. -/
theorem applyRegister_connectedDevices (st : ServerState) (c : RegCall) :
    (applyRegister st c).connectedDevices =
      jsMapSet c.info.id (mkDevice c.info c.sid c.now) st.connectedDevices := by
  unfold applyRegister registerDevice
  cases c.storeOk <;> rfl

/-- Register sequences preserve distinctness of registry keys. -/
theorem runRegisters_nodup (cs : List RegCall) (st : ServerState)
    (h : (st.connectedDevices.map Prod.fst).Nodup) :
    ((runRegisters st cs).connectedDevices.map Prod.fst).Nodup := by
  induction cs generalizing st with
  | nil => exact h
  | cons c rest ih =>
    have hstep : runRegisters st (c :: rest) = runRegisters (applyRegister st c) rest := rfl
    rw [hstep]
    apply ih
    rw [applyRegister_connectedDevices]
    exact nodup_keys_jsMapSet _ _ h

/-- C6: across any sequence of register commands for the same device id X,
the registry holds at most one entry keyed X after every prefix, and after
the last call the entry under X is exactly the device record built from
that most recent call (last-writer-wins). -/
theorem register_last_writer_wins (st : ServerState) (calls : List RegCall)
    (X : Option String)
    (hnodup : (st.connectedDevices.map Prod.fst).Nodup)
    (hX : ∀ c ∈ calls, c.info.id = X) :
    (∀ p, p <+: calls →
      (((runRegisters st p).connectedDevices.filter (fun q => q.1 = X)).length ≤ 1)) ∧
    (∀ cs c, calls = cs ++ [c] →
      jsMapGet X (runRegisters st calls).connectedDevices =
        some (mkDevice c.info c.sid c.now)) := by
  constructor
  · intro p _
    exact length_filter_key_le_one (runRegisters_nodup p st hnodup) X
  · intro cs c hcalls
    subst hcalls
    have h1 : runRegisters st (cs ++ [c]) = applyRegister (runRegisters st cs) c := by
      simp [runRegisters, List.foldl_append]
    rw [h1, applyRegister_connectedDevices]
    have hc : c.info.id = X := hX c (by simp)
    rw [hc]
    exact jsMapGet_jsMapSet_self X _ _

/-- First concrete registration of device MCR. -/
def regCallA : RegCall := ⟨"s1", ⟨some "MCR", some "Main Control", some "mcr", none⟩, 10, true⟩

/-- Re-registration of device MCR from another session, store failing. -/
def regCallB : RegCall :=
  ⟨"s2", ⟨some "MCR", some "Main Control Room", some "mcr", some "en-GB"⟩, 20, false⟩

/-- C6 witness: the theorem applied to two concrete registrations of the
same id from the initial state. -/
theorem register_last_writer_wins_witness :
    (initialState.connectedDevices.map Prod.fst).Nodup ∧
    (∀ c ∈ [regCallA, regCallB], c.info.id = some "MCR") ∧
    (∀ cs c, [regCallA, regCallB] = cs ++ [c] →
      jsMapGet (some "MCR") (runRegisters initialState [regCallA, regCallB]).connectedDevices =
        some (mkDevice c.info c.sid c.now)) :=
  ⟨by decide, by decide,
    (register_last_writer_wins initialState [regCallA, regCallB] (some "MCR")
      (by decide) (by decide)).2⟩

/-! Claim C8. -/

/-- When the per-device store update succeeds everywhere, the guarded
collect of disconnect notifications is a plain map. -/
theorem filterMap_dbOk_eq_map {l : List (Option String × Device)}
    {dbOk : Option String → Bool} (h : ∀ p ∈ l, dbOk p.1 = true) :
    l.filterMap
        (fun p => if dbOk p.1 then some (Target.all, Event.deviceDisconnected p.1) else none) =
      l.map (fun p => (Target.all, Event.deviceDisconnected p.1)) := by
  induction l with
  | nil => rfl
  | cons q rest ih =>
    have hq := h q (List.mem_cons_self _ _)
    simp [List.filterMap_cons, hq, ih (fun p hp => h p (List.mem_cons_of_mem _ hp))]

/-- C8: a sweep at time now with the given threshold keeps exactly the
registry entries whose lastSeen is within the threshold of now, leaving
each of them unchanged, touches no message, and (when every store update
succeeds) emits exactly one device-disconnected notification per evicted
entry, in registry order. -/
theorem sweep_evicts_exactly_stale (st : ServerState) (now threshold : Int)
    (dbOk : Option String → Bool)
    (hok : ∀ p ∈ st.connectedDevices, dbOk p.1 = true) :
    (∀ p, p ∈ (cleanupInactiveDevices st now threshold dbOk).1.connectedDevices ↔
      p ∈ st.connectedDevices ∧ now - p.2.lastSeen ≤ threshold) ∧
    (cleanupInactiveDevices st now threshold dbOk).1.messages = st.messages ∧
    (cleanupInactiveDevices st now threshold dbOk).2 =
      (st.connectedDevices.filter (fun p => isStale now threshold p.2)).map
        (fun p => (Target.all, Event.deviceDisconnected p.1)) := by
  refine ⟨?_, rfl, ?_⟩
  · intro p
    simp [cleanupInactiveDevices, List.mem_filter, isStale, not_lt]
  · exact filterMap_dbOk_eq_map
      (fun p hp => hok p (List.mem_filter.mp hp).1)

/-- A device last seen long before the sweep. -/
def devStale : Device := ⟨some "A", some "Aux", some "engine", none, "sA", 10000, "online"⟩

/-- A device last seen recently. -/
def devFresh : Device := ⟨some "B", some "Bridge", some "mcr", none, "sB", 90000, "online"⟩

/-- A registry holding one stale and one fresh device. -/
def sweepState : ServerState := ⟨[(some "A", devStale), (some "B", devFresh)], []⟩

/-- C8 witness: the theorem applied to a concrete sweep over one stale and
one fresh device with every store update succeeding. -/
theorem sweep_evicts_exactly_stale_witness :
    (∀ p ∈ sweepState.connectedDevices, (fun _ => true : Option String → Bool) p.1 = true) ∧
    ((∀ p, p ∈ (cleanupInactiveDevices sweepState 100000 60000 (fun _ => true)).1.connectedDevices ↔
        p ∈ sweepState.connectedDevices ∧ (100000 : Int) - p.2.lastSeen ≤ 60000) ∧
      (cleanupInactiveDevices sweepState 100000 60000 (fun _ => true)).1.messages =
        sweepState.messages ∧
      (cleanupInactiveDevices sweepState 100000 60000 (fun _ => true)).2 =
        (sweepState.connectedDevices.filter (fun p => isStale 100000 60000 p.2)).map
          (fun p => (Target.all, Event.deviceDisconnected p.1))) :=
  ⟨by decide,
    sweep_evicts_exactly_stale sweepState 100000 60000 (fun _ => true) (by decide)⟩

/-! Claim C10. -/

/-- The entry the disconnect scan returns belongs to the registry and is
bound to the closing socket. -/
theorem findBySocket_mem {sid : String} {m : Registry} {k : Option String} {d : Device}
    (h : findBySocket sid m = some (k, d)) : (k, d) ∈ m ∧ d.socketId = sid := by
  induction m with
  | nil => simp [findBySocket] at h
  | cons p rest ih =>
    obtain ⟨k', d'⟩ := p
    by_cases hs : d'.socketId = sid
    · simp only [findBySocket, if_pos hs, Option.some.injEq, Prod.mk.injEq] at h
      obtain ⟨h1, h2⟩ := h
      subst h1
      subst h2
      exact ⟨List.mem_cons_self _ _, hs⟩
    · simp only [findBySocket, if_neg hs] at h
      obtain ⟨h1, h2⟩ := ih h
      exact ⟨List.mem_cons_of_mem _ h1, h2⟩

/-- An entry with another key survives Map.delete. -/
theorem mem_jsMapDelete_of_ne {m : Registry} {k : Option String}
    (q : Option String × Device) (hq : q ∈ m) (hne : q.1 ≠ k) :
    q ∈ jsMapDelete k m := by
  induction m with
  | nil => cases hq
  | cons p rest ih =>
    obtain ⟨k', v'⟩ := p
    by_cases h : k' = k
    · rw [jsMapDelete, if_pos h]
      rcases List.mem_cons.mp hq with h1 | h1
      · exact absurd (by rw [h1]; exact h) hne
      · exact h1
    · rw [jsMapDelete, if_neg h]
      rcases List.mem_cons.mp hq with h1 | h1
      · exact h1 ▸ List.mem_cons_self _ _
      · exact List.mem_cons_of_mem _ (ih h1)

/-- With distinct keys, everything surviving Map.delete was present and
carries a different key. -/
theorem mem_jsMapDelete {m : Registry} (hm : (m.map Prod.fst).Nodup)
    {k : Option String} {q : Option String × Device} (hq : q ∈ jsMapDelete k m) :
    q ∈ m ∧ q.1 ≠ k := by
  induction m with
  | nil => simp [jsMapDelete] at hq
  | cons p rest ih =>
    simp only [List.map_cons, List.nodup_cons] at hm
    obtain ⟨hp, hrest⟩ := hm
    obtain ⟨k', v'⟩ := p
    by_cases h : k' = k
    · rw [jsMapDelete, if_pos h] at hq
      subst h
      refine ⟨List.mem_cons_of_mem _ hq, ?_⟩
      intro hqk
      apply hp
      exact List.mem_map.mpr ⟨q, hq, hqk⟩
    · rw [jsMapDelete, if_neg h] at hq
      rcases List.mem_cons.mp hq with h1 | h1
      · rw [h1]
        exact ⟨List.mem_cons_self _ _, h⟩
      · obtain ⟨ha, hb⟩ := ih hrest h1
        exact ⟨List.mem_cons_of_mem _ ha, hb⟩

/-- With distinct keys, equal keys force equal entries. -/
theorem eq_of_mem_of_nodup_keys {m : Registry} (hm : (m.map Prod.fst).Nodup)
    {q r : Option String × Device} (hq : q ∈ m) (hr : r ∈ m) (h : q.1 = r.1) : q = r :=
  List.inj_on_of_nodup_map hm hq hr h

/-- C10: a transport disconnect with no registered device for the closing
socket changes nothing and emits nothing; otherwise exactly the first
registry entry bound to that socket is removed, every other entry (even
one bound to the same socket under another id) survives unchanged, and at
most one device-disconnected notification is emitted. -/
theorem disconnect_removes_at_most_first_match (st : ServerState) (sid : String)
    (storeOk : Bool) (hnodup : (st.connectedDevices.map Prod.fst).Nodup) :
    (findBySocket sid st.connectedDevices = none →
      (handleDisconnect st sid storeOk).1 = st ∧ (handleDisconnect st sid storeOk).2 = []) ∧
    (∀ k d, findBySocket sid st.connectedDevices = some (k, d) →
      ((k, d) ∈ st.connectedDevices ∧ d.socketId = sid) ∧
      (∀ q, q ∈ (handleDisconnect st sid storeOk).1.connectedDevices ↔
        q ∈ st.connectedDevices ∧ q ≠ (k, d)) ∧
      (handleDisconnect st sid storeOk).2.length ≤ 1 ∧
      (storeOk = true → (handleDisconnect st sid storeOk).2 =
        [(Target.exceptSender sid, Event.deviceDisconnected d.id)])) := by
  constructor
  · intro h
    simp [handleDisconnect, h]
  · intro k d h
    have hmem := findBySocket_mem h
    have hreg : (handleDisconnect st sid storeOk).1.connectedDevices =
        jsMapDelete k st.connectedDevices := by
      simp [handleDisconnect, h]
    refine ⟨hmem, ?_, ?_, ?_⟩
    · intro q
      rw [hreg]
      constructor
      · intro hq
        obtain ⟨h1, h2⟩ := mem_jsMapDelete hnodup hq
        exact ⟨h1, fun hc => h2 (by rw [hc])⟩
      · rintro ⟨h1, h2⟩
        refine mem_jsMapDelete_of_ne q h1 ?_
        intro hk
        exact h2 (eq_of_mem_of_nodup_keys hnodup h1 hmem.1 hk)
    · simp only [handleDisconnect, h]
      cases storeOk <;> simp
    · intro hok
      simp [handleDisconnect, h, hok]

/-- First device registered on the shared socket. -/
def devShared1 : Device := ⟨some "A", some "One", some "remote", none, "shared", 5, "online"⟩

/-- Second device registered on the same shared socket. -/
def devShared2 : Device := ⟨some "B", some "Two", some "handheld", none, "shared", 6, "online"⟩

/-- A registry in which one session registered two device ids. -/
def twoOnOneSocket : ServerState := ⟨[(some "A", devShared1), (some "B", devShared2)], []⟩

/-- C10 witness: the theorem applied to a concrete disconnect of a socket
that registered two devices; only the first entry goes away. -/
theorem disconnect_removes_at_most_first_match_witness :
    (twoOnOneSocket.connectedDevices.map Prod.fst).Nodup ∧
    findBySocket "shared" twoOnOneSocket.connectedDevices = some (some "A", devShared1) ∧
    (∀ q, q ∈ (handleDisconnect twoOnOneSocket "shared" true).1.connectedDevices ↔
      q ∈ twoOnOneSocket.connectedDevices ∧ q ≠ (some "A", devShared1)) :=
  ⟨by decide, by decide,
    ((disconnect_removes_at_most_first_match twoOnOneSocket "shared" true
      (by decide)).2 (some "A") devShared1 (by decide)).2.1⟩

/-! Claim C7. -/

/-- A stored message stamped with the given index. -/
def mkIndexedMessage (i : Nat) : Message :=
  { id := toString i, text := some "t", timestamp := (i : Int),
    channel := some "broadcast", source := some "MCR", mtype := some "normal",
    deviceId := none }

/-- One thousand stored messages with distinct ids and timestamps. -/
def manyMessages : List Message := (List.range retentionCap).map mkIndexedMessage

/-- A server whose messages collection already sits at the cap. -/
def cappedState : ServerState := ⟨[], manyMessages⟩

/-- A successful send-message appends exactly one message to the store. -/
theorem sendMessage_ok_messages (st : ServerState) (sid : String)
    (input : MessageInput) (now : Int) (freshId : String) :
    (sendMessage st sid input now freshId true).1.messages =
      st.messages ++ [mkWsMessage input now freshId] := rfl

set_option maxRecDepth 4000 in
/-- The capped state's collection is the thousand-message fixture. -/
theorem cappedState_messages : cappedState.messages = manyMessages := rfl

/-- C7 counterexample: a publish through the realtime send-message path
that takes the stored count past the cap of 1000 deletes nothing: 1001
messages remain, contradicting the claim that every such publish trims
back to exactly 1000. -/
theorem ws_publish_ignores_retention_cap :
    cappedState.messages.length = retentionCap ∧
    (sendMessage cappedState "s1" helloInput 5000 "mBig" true).1.messages.length =
      retentionCap + 1 := by
  have hlen : manyMessages.length = retentionCap := by
    unfold manyMessages
    rw [List.length_map, List.length_range]
  rw [sendMessage_ok_messages, cappedState_messages, List.length_append, hlen]
  exact ⟨rfl, rfl⟩

/-- Below or at the cap, retention trimming does nothing. -/
theorem enforceRetention_of_le {l : List Message} (h : l.length ≤ retentionCap) :
    enforceRetention l = l := by
  unfold enforceRetention
  rw [if_neg (by omega)]

/-- Behaviour of the retention trim on any collection with distinct ids
and distinct timestamps: the result holds min cap count messages, all
taken from the collection, and everything deleted is strictly older than
everything kept. -/
theorem enforceRetention_spec (l : List Message)
    (hid : (l.map Message.id).Nodup) (hts : (l.map Message.timestamp).Nodup) :
    (enforceRetention l).length = min retentionCap l.length ∧
    (∀ m ∈ enforceRetention l, m ∈ l) ∧
    (∀ m ∈ l, m ∉ enforceRetention l →
      ∀ m' ∈ enforceRetention l, m.timestamp < m'.timestamp) := by
  by_cases hlen : l.length ≤ retentionCap
  · rw [enforceRetention_of_le hlen]
    refine ⟨(Nat.min_eq_right hlen).symm, fun m hm => hm, ?_⟩
    intro m hm hnot
    exact absurd hm hnot
  · have hlen' : retentionCap < l.length := by omega
    set S := List.insertionSort tsLE l with hS
    set k := l.length - retentionCap with hk
    have hSperm : List.Perm S l := List.perm_insertionSort tsLE l
    have hER : enforceRetention l =
        l.filter (fun m => m.id ∉ (S.take k).map Message.id) := by
      unfold enforceRetention
      rw [if_pos (by omega)]
    have hSid : (S.map Message.id).Nodup := ((hSperm.map Message.id).nodup_iff).mpr hid
    have hSnodup : S.Nodup := List.Nodup.of_map Message.id hSid
    have hTD : S.take k ++ S.drop k = S := List.take_append_drop k S
    have hdisj : (S.take k).Disjoint (S.drop k) := by
      have := hSnodup
      rw [← hTD] at this
      exact (List.nodup_append.mp this).2.2
    have hlnodup : l.Nodup := List.Nodup.of_map Message.id hid
    have hmemER : ∀ m, m ∈ enforceRetention l ↔ m ∈ S.drop k := by
      intro m
      rw [hER]
      simp only [List.mem_filter, decide_not, Bool.not_eq_true', decide_eq_false_iff_not]
      constructor
      · rintro ⟨hml, hmid⟩
        have hmS : m ∈ S := hSperm.mem_iff.mpr hml
        rw [← hTD] at hmS
        rcases List.mem_append.mp hmS with hmT | hmD
        · exact absurd (List.mem_map.mpr ⟨m, hmT, rfl⟩) hmid
        · exact hmD
      · intro hmD
        have hmS : m ∈ S := by
          rw [← hTD]
          exact List.mem_append.mpr (Or.inr hmD)
        refine ⟨hSperm.mem_iff.mp hmS, ?_⟩
        intro hmid
        obtain ⟨t, htT, htid⟩ := List.mem_map.mp hmid
        have htS : t ∈ S := by
          rw [← hTD]
          exact List.mem_append.mpr (Or.inl htT)
        have : t = m := List.inj_on_of_nodup_map hSid htS hmS htid
        subst this
        exact hdisj htT hmD
    have hERnodup : (enforceRetention l).Nodup := by
      rw [hER]
      exact List.Nodup.sublist (List.filter_sublist l) hlnodup
    have hDnodup : (S.drop k).Nodup :=
      List.Nodup.sublist (List.drop_sublist k S) hSnodup
    have hERperm : List.Perm (enforceRetention l) (S.drop k) :=
      (List.perm_ext_iff_of_nodup hERnodup hDnodup).mpr hmemER
    refine ⟨?_, ?_, ?_⟩
    · rw [hERperm.length_eq, List.length_drop, hSperm.length_eq]
      omega
    · intro m hm
      exact hSperm.mem_iff.mp (List.mem_of_mem_drop ((hmemER m).mp hm))
    · intro m hml hmnot m' hm'
      have hm'D : m' ∈ S.drop k := (hmemER m').mp hm'
      have hmT : m ∈ S.take k := by
        have hmS : m ∈ S := hSperm.mem_iff.mpr hml
        rw [← hTD] at hmS
        rcases List.mem_append.mp hmS with h1 | h1
        · exact h1
        · exact absurd ((hmemER m).mpr h1) hmnot
      have hle : tsLE m m' := by
        have hpw : List.Pairwise tsLE S := List.sorted_insertionSort tsLE l
        rw [← hTD] at hpw
        exact (List.pairwise_append.mp hpw).2.2 m hmT m' hm'D
      have hne : m ≠ m' := by
        intro hc
        subst hc
        exact hdisj hmT hm'D
      have hm'l : m' ∈ l := hSperm.mem_iff.mp (List.mem_of_mem_drop hm'D)
      have hnets : m.timestamp ≠ m'.timestamp := by
        intro hts'
        exact hne (List.inj_on_of_nodup_map hts hml hm'l hts')
      exact lt_of_le_of_ne hle hnets

/-- C7 amended: only the HTTP messages route enforces the cap: after a
valid POST insert over a collection with distinct ids and timestamps, the
retained count is min 1000 (previous count + 1), every survivor comes
from the collection after insert, and everything deleted is strictly
older than every survivor (so the survivors are the most recent); the
realtime publish path performs no trimming at all. -/
theorem messages_post_enforces_cap (store : List Message) (input : PostMessageInput)
    (now : Int) (freshId : String)
    (hvalid : (isFalsyStr input.text || isFalsyStr input.source) = false)
    (hid : ((store ++ [mkPostMessage input now freshId]).map Message.id).Nodup)
    (hts : ((store ++ [mkPostMessage input now freshId]).map Message.timestamp).Nodup) :
    (messagesPost store input now freshId).1.length = min retentionCap (store.length + 1) ∧
    (∀ m ∈ (messagesPost store input now freshId).1,
      m ∈ store ++ [mkPostMessage input now freshId]) ∧
    (∀ m ∈ store ++ [mkPostMessage input now freshId],
      m ∉ (messagesPost store input now freshId).1 →
      ∀ m' ∈ (messagesPost store input now freshId).1, m.timestamp < m'.timestamp) := by
  have hpost : (messagesPost store input now freshId).1 =
      enforceRetention (store ++ [mkPostMessage input now freshId]) := by
    unfold messagesPost
    rw [hvalid]
    simp
  obtain ⟨h1, h2, h3⟩ := enforceRetention_spec (store ++ [mkPostMessage input now freshId]) hid hts
  rw [hpost]
  refine ⟨?_, h2, h3⟩
  rw [h1, List.length_append]
  rfl

/-- A stored message already present before the witness POST. -/
def msgA : Message := ⟨"a1", some "x", 1, some "broadcast", some "MCR", some "normal", none⟩

/-- A valid messages-route payload used by the witness. -/
def helloPost : PostMessageInput :=
  { id := none, text := some "hi", timestamp := some 2, channel := none,
    source := some "MCR", mtype := none, deviceId := none }

/-- C7 witness: the amended theorem applied to a concrete valid POST over
a one-message collection with distinct ids and timestamps. -/
theorem messages_post_enforces_cap_witness :
    (isFalsyStr helloPost.text || isFalsyStr helloPost.source) = false ∧
    ((([msgA] : List Message) ++ [mkPostMessage helloPost 3 "f1"]).map Message.id).Nodup ∧
    ((([msgA] : List Message) ++ [mkPostMessage helloPost 3 "f1"]).map Message.timestamp).Nodup ∧
    (messagesPost [msgA] helloPost 3 "f1").1.length =
      min retentionCap (([msgA] : List Message).length + 1) :=
  ⟨by decide, by decide, by decide,
    (messages_post_enforces_cap [msgA] helloPost 3 "f1"
      (by decide) (by decide) (by decide)).1⟩

end IndustrialComm
